import Mathlib

/-!
# LiveDrops — Live Interaction Coordination Engine: verification development

A shallow embedding, in Lean 4, of the core logic of the LiveDrops API
(`apps/api`): the token-balance gate (`services/solana.ts`), the
challenge/session authenticator (`services/session.ts`, `routes/auth`),
the message sanitizer (`utils/sanitize.ts`), the request validation
schemas (`utils/validation.ts`), the viewer action routes
(`routes/viewer.ts`) and the creator drop routes (`routes/drops`).

Conventions used throughout:
* JavaScript `bigint` values (token balances, thresholds) are modelled as
  `Nat`; all balances in the source are sums of non-negative raw token
  amounts, and thresholds are validated digit strings.
* JavaScript timestamps (`Date.now()`, milliseconds) are `Nat`.
  `a - b` in the source compares against a TTL; for `a ≥ b` the Nat
  truncated subtraction agrees with JS, and for `a < b` both sides make
  the "age" non-positive/zero, which is below any positive TTL, so the
  behaviours agree.
* Strings are manipulated as `List Char`; JS `.length` counts UTF-16
  units whereas Lean counts code points — identical on the BMP inputs
  this development quantifies over or evaluates at.
* Database rows are Lean structures held in lists; Prisma `findFirst` /
  `findUnique` become `List.find?` of the same `where` predicate,
  `updateMany`/`update` become `List.map` of the same conditional
  update, and `create` appends.
* External collaborators (Solana RPC, the Bags launch service, key and
  signature validation) are oracles passed in as explicit parameters, so
  every definition stays executable.
-/

namespace LiveDrops

/-! ## Small string/char utilities shared by the embedded modules -/

/-- The whitespace class used by JS `\s`, `String.prototype.trim` and the
sanitizer's split: space, tab, newline, carriage return, vertical tab and
form feed (the further Unicode space code points play no role in any input
considered here). -/
def isJsWs (c : Char) : Bool :=
  c == ' ' || c == '\t' || c == '\n' || c == '\r' || c == '\x0b' || c == '\x0c'

/-- JS `String.prototype.trim` on a list of characters. -/
def jsTrim (l : List Char) : List Char :=
  ((l.dropWhile isJsWs).reverse.dropWhile isJsWs).reverse

def isAsciiDigit (c : Char) : Bool := '0' ≤ c && c ≤ '9'

def isAsciiAlpha (c : Char) : Bool := ('a' ≤ c && c ≤ 'z') || ('A' ≤ c && c ≤ 'Z')

def isAsciiUpper (c : Char) : Bool := 'A' ≤ c && c ≤ 'Z'

def isLowerAlpha (c : Char) : Bool := 'a' ≤ c && c ≤ 'z'

/-- Numeric value of a digit string (the value `BigInt(s)` produces on a
string of ASCII digits). -/
def natOfDigits (l : List Char) : Nat :=
  l.foldl (fun acc c => acc * 10 + (c.toNat - '0'.toNat)) 0

/-- `/^\d+$/.test s` — a non-empty all-digits string. -/
def isDigitString (s : String) : Bool :=
  s.data ≠ [] && s.data.all isAsciiDigit

/-- JS `BigInt(string)`: trims whitespace, maps the empty remainder to `0`,
accepts a digit string, and throws (here: `none`) otherwise.  (The sign and
`0x`/`0o`/`0b` forms accepted by JS never reach this code: every threshold
string is validated against `/^\d+$/` when written.) -/
def bigIntOfString (s : String) : Option Nat :=
  let t := jsTrim s.data
  if t = [] then some 0
  else if t.all isAsciiDigit then some (natOfDigits t) else none

/-- Substring containment (`String.prototype.includes`, Prisma `contains`).
(Prisma's SQLite backend compares ASCII letters case-insensitively; every
identifier this program stores and searches for is lower-case, so the
case-sensitive containment below coincides with it on the program's data.) -/
def listContains (hay pat : List Char) : Bool :=
  match hay with
  | [] => pat.isEmpty
  | _ :: t => pat.isPrefixOf hay || listContains t pat

def strContains (hay pat : String) : Bool :=
  listContains hay.data pat.data

end LiveDrops

namespace LiveDrops

/-! ## Token-Balance Gate — `apps/api/src/services/bags.ts` sibling
`services/solana.ts`: `getTokenBalance` and `checkHolderThreshold`. -/

/-- One entry of the per-`(wallet, mint)` balance cache
(`balanceCache: Map<string, {balance: bigint; timestamp: number}>`). -/
structure BalanceCacheEntry where
  balance : Nat
  timestamp : Nat
  deriving Repr, DecidableEq

/-- Result of one `getTokenBalance` call: the returned balance, the cache
entry stored for this key afterwards, and whether an upstream RPC query was
issued.  The source function can only `return`; it has no failure path. -/
structure BalanceResult where
  balance : Nat
  cacheAfter : Option BalanceCacheEntry
  queried : Bool
  deriving Repr, DecidableEq

/-- `getTokenBalance(walletPubkey, tokenMint)`.

The inputs localize the function's environment for a fixed key:
`cached` is the current cache entry for `walletPubkey:tokenMint`, `now` is
`Date.now()`, `ttlMs` is `config.viewer.tokenBalanceCacheSeconds * 1000`,
and `query` is the outcome of
`conn.getParsedTokenAccountsByOwner(wallet, {mint})`: a thrown error, or
the list of token accounts, each carrying an optional raw `amount`
(`none` models an absent/empty `tokenAmount.amount`, skipped by the
source's truthiness check). -/
def getTokenBalance (cached : Option BalanceCacheEntry) (now ttlMs : Nat)
    (query : Except Unit (List (Option Nat))) : BalanceResult :=
  match cached with
  | some c =>
    if now - c.timestamp < ttlMs then
      { balance := c.balance, cacheAfter := cached, queried := false }
    else
      match query with
      | .ok accounts =>
        let total := (accounts.filterMap id).sum
        { balance := total, cacheAfter := some ⟨total, now⟩, queried := true }
      | .error _ =>
        { balance := c.balance, cacheAfter := cached, queried := true }
  | none =>
    match query with
    | .ok accounts =>
      let total := (accounts.filterMap id).sum
      { balance := total, cacheAfter := some ⟨total, now⟩, queried := true }
    | .error _ =>
      { balance := 0, cacheAfter := none, queried := true }

/-- `checkHolderThreshold(walletPubkey, tokenMint, thresholdRaw)` —
`balance >= BigInt(thresholdRaw)`; `none` models the `BigInt` constructor
throwing on a malformed threshold string. -/
def checkHolderThreshold (cached : Option BalanceCacheEntry) (now ttlMs : Nat)
    (query : Except Unit (List (Option Nat))) (thresholdRaw : String) : Option Bool :=
  (bigIntOfString thresholdRaw).map
    (fun t => decide (t ≤ (getTokenBalance cached now ttlMs query).balance))

end LiveDrops

namespace LiveDrops

example : getTokenBalance (some ⟨5, 100⟩) 110 15000 (.error ()) =
    { balance := 5, cacheAfter := some ⟨5, 100⟩, queried := false } := by rfl

example : getTokenBalance (some ⟨5, 100⟩) 999999 15000 (.error ()) =
    { balance := 5, cacheAfter := some ⟨5, 100⟩, queried := true } := by rfl

example : checkHolderThreshold none 0 15000 (.ok []) "0" = some true := by rfl

end LiveDrops

namespace LiveDrops

/-! ## Message sanitizer — `apps/api/src/utils/sanitize.ts`

`sanitizeTtsMessage` applies, in order: trim; global replacement of
`URL_PATTERN` by `"[link removed]"`; global replacement of
`INVITE_PATTERN` by `"[invite removed]"`; collapse of runs of five or more
identical characters to four (`/(.)\1{4,}/g` → `'$1$1$1$4'`-style
`'$1$1$1$1'`); lower-casing when more than 70% of the letters are capitals;
per-word profanity masking; truncation with an ellipsis; and a final
emptiness check that ignores whitespace, `*`, `[` and `]`.

The two regex replacements are embedded as an explicit scanner with the
exact JS semantics: positions are tried left to right, alternatives in
pattern order, quantifiers greedily (with the backtracking the bare-domain
alternative needs), and each match of length `n` is replaced and scanning
resumes after it. -/

def isDomainChar (c : Char) : Bool :=
  isAsciiAlpha c || isAsciiDigit c || c == '.' || c == '-'

/-- JS regex word character (`\w`), as used by the `\b` assertions. -/
def isWordChar (c : Char) : Bool :=
  isAsciiAlpha c || isAsciiDigit c || c == '_'

def isWordOpt : Option Char → Bool
  | none => false
  | some c => isWordChar c

/-- Case-insensitive prefix test against a lower-case pattern
(the `i` flag of the source regexes; all pattern letters are ASCII). -/
def ciPrefix (pat text : List Char) : Bool :=
  match pat with
  | [] => true
  | pc :: ps =>
    match text with
    | [] => false
    | tc :: ts => (tc.toLower == pc) && ciPrefix ps ts

/-- Length of the leading `[^\s]*` run. -/
def nonWsLen (l : List Char) : Nat :=
  (l.takeWhile (fun c => !isJsWs c)).length

/-- Alternative 1 of `URL_PATTERN`: `https?:\/\/[^\s]+`. -/
def matchHttpNoS (r4 : List Char) : Option Nat :=
  if ciPrefix "://".data r4 then
    let m := nonWsLen (r4.drop 3)
    if 1 ≤ m then some (7 + m) else none
  else none

def matchHttp (l : List Char) : Option Nat :=
  if ciPrefix "http".data l then
    let r4 := l.drop 4
    match r4 with
    | [] => none
    | c :: rs =>
      if c.toLower == 's' && ciPrefix "://".data rs then
        let m := nonWsLen (rs.drop 3)
        if 1 ≤ m then some (8 + m) else none
      else matchHttpNoS r4
  else none

/-- Alternative 2 of `URL_PATTERN`: `www\.[^\s]+`. -/
def matchWww (l : List Char) : Option Nat :=
  if ciPrefix "www.".data l then
    let m := nonWsLen (l.drop 4)
    if 1 ≤ m then some (4 + m) else none
  else none

/-- The TLD alternation of `URL_PATTERN`, in pattern order. -/
def tldList : List String :=
  ["com", "org", "net", "io", "co", "dev", "app", "xyz", "gg", "tv", "fm", "me"]

/-- For a fixed split point `k` (characters consumed by `[a-zA-Z0-9.-]+`),
try `\.(<tld>)\b[^\s]*` at offset `k` of `l`, testing TLDs in pattern
order.  The character before offset `e` is always a TLD letter, so the
trailing `\b` holds exactly when the character at `e` is absent or not a
word character. -/
def tryTlds (l : List Char) (k : Nat) : List String → Option Nat
  | [] => none
  | tld :: rest =>
    if ciPrefix tld.data (l.drop (k + 1)) then
      let e := k + 1 + tld.length
      if isWordOpt (l.get? e) then tryTlds l k rest
      else some (e + nonWsLen (l.drop e))
    else tryTlds l k rest

/-- Greedy backtracking over the split point of `[a-zA-Z0-9.-]+\.`:
`ks` is tried in decreasing order, as the greedy `+` does. -/
def tryKs (l : List Char) : List Nat → Option Nat
  | [] => none
  | k :: ks =>
    if 1 ≤ k && l.get? k == some '.' then
      match tryTlds l k tldList with
      | some n => some n
      | none => tryKs l ks
    else tryKs l ks

/-- Alternative 3 of `URL_PATTERN`:
`\b[a-zA-Z0-9.-]+\.(com|org|net|io|co|dev|app|xyz|gg|tv|fm|me)\b[^\s]*`.
`prev` is the character before the match position, for the leading `\b`. -/
def matchBareDomain (prev : Option Char) (l : List Char) : Option Nat :=
  match l with
  | [] => none
  | c0 :: _ =>
    let m := (l.takeWhile isDomainChar).length
    if m = 0 then none
    else if isWordOpt prev == isWordChar c0 then none
    else tryKs l ((List.range (m + 1)).reverse)

/-- `URL_PATTERN` at one position: alternatives in pattern order. -/
def urlMatcher (prev : Option Char) (l : List Char) : Option Nat :=
  match matchHttp l with
  | some n => some n
  | none =>
    match matchWww l with
    | some n => some n
    | none => matchBareDomain prev l

/-- `INVITE_PATTERN`: `discord\.gg\/[^\s]+|twitch\.tv\/[^\s]+`. -/
def inviteMatcher (_prev : Option Char) (l : List Char) : Option Nat :=
  if ciPrefix "discord.gg/".data l then
    let m := nonWsLen (l.drop 11)
    if 1 ≤ m then some (11 + m) else none
  else if ciPrefix "twitch.tv/".data l then
    let m := nonWsLen (l.drop 10)
    if 1 ≤ m then some (10 + m) else none
  else none

/-- Global `String.prototype.replace`: scan positions left to right; on a
match of length `n` emit the replacement and resume after the match (the
`\b` context character is taken from the original string, as JS does).
The scan consumes at least one character per step, so running it with the
string's length as structural fuel performs the complete scan. -/
def replaceScanF (matcher : Option Char → List Char → Option Nat)
    (repl : List Char) : Nat → Option Char → List Char → List Char
  | 0, _, l => l
  | _ + 1, _, [] => []
  | fuel + 1, prev, c :: cs =>
    match matcher prev (c :: cs) with
    | some n => repl ++ replaceScanF matcher repl fuel ((c :: cs).get? (n - 1)) (cs.drop (n - 1))
    | none => c :: replaceScanF matcher repl fuel (some c) cs

def replaceScan (matcher : Option Char → List Char → Option Nat)
    (repl : List Char) (prev : Option Char) (l : List Char) : List Char :=
  replaceScanF matcher repl l.length prev l

/-- The `.` of `SPAM_PATTERN` does not match JS line terminators. -/
def isLineTerm (c : Char) : Bool :=
  c == '\n' || c == '\r' || c == '\u2028' || c == '\u2029'

/-- `cleaned.replace(/(.)\1{4,}/g, '$1$1$1$1')`: every maximal run of five
or more identical non-line-terminator characters becomes four.  Each step
consumes the whole leading run (at least one character), so the string's
length again serves as structural fuel. -/
def collapseRunsF : Nat → List Char → List Char
  | 0, l => l
  | _ + 1, [] => []
  | fuel + 1, c :: cs =>
    let n := (cs.takeWhile (· == c)).length + 1
    let rest := cs.dropWhile (· == c)
    (if 5 ≤ n && !isLineTerm c then List.replicate 4 c else List.replicate n c) ++
      collapseRunsF fuel rest

def collapseRuns (l : List Char) : List Char :=
  collapseRunsF l.length l

/-- `hasExcessiveCaps`: more than 70% capitals among the letters of a
message longer than 5 characters.  The source divides two small naturals
as doubles and compares with `0.7`; for the message sizes this code admits
(≤ 200 characters) that comparison coincides with the exact rational one
used here. -/
def hasExcessiveCaps (l : List Char) : Bool :=
  if l.length < 6 then false
  else
    let letters := (l.filter isAsciiAlpha).length
    if letters = 0 then false
    else decide (7 * letters < 10 * ((l.filter (fun c => isAsciiAlpha c && isAsciiUpper c)).length))

def profanityList : List String :=
  ["fuck", "shit", "ass", "bitch", "damn", "crap", "piss", "dick", "cock",
   "pussy", "asshole", "bastard", "slut", "whore", "fag", "faggot", "nigger",
   "nigga", "retard", "cunt", "twat", "wanker", "bollocks"]

/-- One word of the profanity pass: compare
`word.toLowerCase().replace(/[^a-z]/g, '')` against the list and mask a hit
with asterisks of the word's length. -/
def maskProfanity (w : List Char) : List Char :=
  let key := String.mk ((w.map Char.toLower).filter isLowerAlpha)
  if profanityList.contains key then List.replicate w.length '*' else w

mutual

/-- `cleaned.split(/\s+/)`, accumulating the current word (reversed). -/
def splitWsGo : List Char → List Char → List (List Char)
  | acc, [] => [acc.reverse]
  | acc, c :: cs =>
    if isJsWs c then acc.reverse :: splitWsSkip cs else splitWsGo (c :: acc) cs

/-- Skip a whitespace run; a run at the end of the string contributes a
trailing empty field, as the JS `split` does. -/
def splitWsSkip : List Char → List (List Char)
  | [] => [[]]
  | c :: cs => if isJsWs c then splitWsSkip cs else splitWsGo [c] cs

end

/-- `words.map(...).join(' ')` after the split above. -/
def splitWords (l : List Char) : List (List Char) := splitWsGo [] l

/-- `sanitizeTtsMessage(message, maxLength)`. -/
def sanitizeTtsMessage (message : String) (maxLength : Nat) : Option String :=
  let cleaned0 := jsTrim message.data
  if cleaned0.length = 0 then none
  else
    let c1 := replaceScan urlMatcher "[link removed]".data none cleaned0
    let c2 := replaceScan inviteMatcher "[invite removed]".data none c1
    let c3 := collapseRuns c2
    let c4 := if hasExcessiveCaps c3 then c3.map Char.toLower else c3
    let c5 := List.intercalate [' '] ((splitWords c4).map maskProfanity)
    let c6 := if maxLength < c5.length then c5.take (maxLength - 3) ++ "...".data else c5
    if ((c6.filter (fun c => !(isJsWs c || c == '*' || c == '[' || c == ']'))).length = 0)
    then none
    else some (String.mk c6)

example : sanitizeTtsMessage "http://x.com" 200 = some "[link removed]" := by rfl

example : sanitizeTtsMessage "  https://X.com/a?b=1 \t" 200 = some "[link removed]" := by rfl

example : sanitizeTtsMessage "go to x.com now" 200 = some "go to [link removed] now" := by rfl

example : sanitizeTtsMessage "AAAAAAAAAA check http://x.com now" 40 =
    some "AAAA check [link removed] now" := by rfl

example : sanitizeTtsMessage "   " 200 = none := by rfl

example : sanitizeTtsMessage "shit" 200 = none := by rfl

/-- The URL pattern's `gg` TLD alternative captures Discord invites before
the invite pattern ever sees them. -/
example : sanitizeTtsMessage "join discord.gg/abc" 200 = some "join [link removed]" := by rfl

end LiveDrops

namespace LiveDrops

/-! ## Data model — `prisma` rows used by the routes

`Drop.options`-style JSON round trips: a `Poll.options` column stores
`JSON.stringify` of the validated string list and every reader parses it
back, so the model keeps the list itself.  Pass-through presentation
fields of a Drop (image and social URLs) are omitted: no embedded logic
reads them. -/

inductive Status where
  | DRAFT
  | TOKEN_INFO_CREATED
  | CONFIG_CREATED
  | LAUNCHED
  deriving Repr, DecidableEq

inductive ActionType where
  | TTS
  | VOTE
  deriving Repr, DecidableEq

structure Drop where
  id : String
  slug : String
  ownerUserId : String
  name : String
  symbol : String
  description : String
  status : Status
  tokenMint : Option String
  tokenMetadataUrl : Option String
  configKey : Option String
  launchSig : Option String
  prizePoolWallet : String
  streamerBps : Nat
  prizePoolBps : Nat
  holderThresholdRaw : String
  initialBuyLamports : String
  deriving Repr, DecidableEq

structure Poll where
  id : String
  dropId : String
  question : String
  options : List String
  isActive : Bool
  deriving Repr, DecidableEq

structure Action where
  dropId : String
  viewerWallet : String
  type : ActionType
  payloadJson : String
  deriving Repr, DecidableEq

structure DbState where
  drops : List Drop
  polls : List Poll
  actions : List Action
  deriving Repr, DecidableEq

/-- `JSON.stringify({ pollId, optionIndex })` for the identifiers this
program generates (no characters needing JSON escapes). -/
def renderVotePayload (pollId : String) (optionIndex : Nat) : String :=
  "\x7b\"pollId\":\"" ++ pollId ++ "\",\"optionIndex\":" ++ toString optionIndex ++ "\x7d"

/-- `JSON.stringify({ message })`, same caveat. -/
def renderMsgPayload (message : String) : String :=
  "\x7b\"message\":\"" ++ message ++ "\"\x7d"

/-- `JSON.parse` of a stored payload followed by reading `.pollId` and
`.optionIndex`, for the payload grammar this program writes; any other
string is modelled as a parse failure (the tally loops ignore those). -/
def parseVotePayload (s : String) : Option (String × Nat) :=
  let l := s.data
  let pre := "\x7b\"pollId\":\"".data
  if pre.isPrefixOf l then
    let rest := l.drop pre.length
    let p := rest.takeWhile (· != '"')
    let rest2 := rest.drop p.length
    let mid := "\",\"optionIndex\":".data
    if mid.isPrefixOf rest2 then
      let rest3 := rest2.drop mid.length
      let ds := rest3.takeWhile isAsciiDigit
      if ds ≠ [] && rest3.drop ds.length == ['}'] then some (String.mk p, natOfDigits ds)
      else none
    else none
  else none

example : parseVotePayload (renderVotePayload "ab" 3) = some ("ab", 3) := by rfl
example : parseVotePayload "\x7b\"message\":\"hi\"\x7d" = none := by rfl

/-- `prisma.action.groupBy({ by: ['payloadJson'], _count: true })`:
distinct payload strings with multiplicities, in first-occurrence order. -/
def bumpGroup : List (String × Nat) → String → List (String × Nat)
  | [], s => [(s, 1)]
  | (k, n) :: t, s => if k == s then (k, n + 1) :: t else (k, n) :: bumpGroup t s

def groupCounts (ls : List String) : List (String × Nat) :=
  ls.foldl bumpGroup []

example : groupCounts ["a", "b", "a"] = [("a", 2), ("b", 1)] := by rfl

/-- The grouped VOTE payloads of one drop, as every tally site queries
them. -/
def voteGroups (actions : List Action) (dropId : String) : List (String × Nat) :=
  groupCounts ((actions.filter
    (fun a => a.dropId == dropId && a.type == ActionType.VOTE)).map (·.payloadJson))

/-- The vote aggregation of `GET /api/viewer/:slug` (`routes/viewer.ts`):
for each payload group, parse it and, when the option index is in range,
write the group's count at that index.  This site reads only
`payload.optionIndex` — it has no `pollId` comparison.  (A parsed index is
a `Nat`, so the source's `>= 0` conjunct is implicit.) -/
def viewerGetVoteCounts (actions : List Action) (dropId : String)
    (numOptions : Nat) : List Nat :=
  (voteGroups actions dropId).foldl
    (fun counts g =>
      match parseVotePayload g.1 with
      | some (_, idx) => if idx < numOptions then counts.set idx g.2 else counts
      | none => counts)
    (List.replicate numOptions 0)

/-- The vote aggregation of `POST /api/viewer/:slug/vote` (and of the two
overlay endpoints): identical, except that a group only counts when its
parsed `pollId` equals the poll being tallied. -/
def votePostCounts (actions : List Action) (dropId pollId : String)
    (numOptions : Nat) : List Nat :=
  (voteGroups actions dropId).foldl
    (fun counts g =>
      match parseVotePayload g.1 with
      | some (pid, idx) =>
        if pid == pollId && idx < numOptions then counts.set idx g.2 else counts
      | none => counts)
    (List.replicate numOptions 0)

example :
    viewerGetVoteCounts [⟨"d1", "w", .VOTE, renderVotePayload "p0" 0⟩] "d1" 2 = [1, 0] := by rfl

example :
    votePostCounts [⟨"d1", "w", .VOTE, renderVotePayload "p0" 0⟩] "d1" "p1" 2 = [0, 0] := by rfl

end LiveDrops

namespace LiveDrops

/-! ## Viewer routes — `apps/api/src/routes/viewer.ts`

The request-handler environment carries the external oracles a handler
consults: Solana public-key validation (`publicKeySchema`), and the
balance cache / RPC outcome per `(wallet, mint)` pair together with the
clock and TTL that `getTokenBalance` reads. -/

structure ViewerEnv where
  validKey : String → Bool
  balCache : String → String → Option BalanceCacheEntry
  balQuery : String → String → Except Unit (List (Option Nat))
  now : Nat
  ttlMs : Nat
  maxTtsLength : Nat

inductive ViewerResp where
  | invalidWallet
  | invalidVote
  | invalidMessage
  | notFound
  | notLaunched
  | pollNotFound
  | invalidOption
  | insufficientHolding (requiredAmount : String)
  | duplicateVote
  | messageRejected
  | internalError
  | voteOk (optionIndex : Nat) (voteCounts : List Nat)
  | ttsOk (message : String)
  deriving Repr, DecidableEq

/-- `voteActionSchema`: `pollId: z.string().min(1)`,
`optionIndex: z.number().int().min(0)`. -/
def voteActionValid (pollId : String) (optionIndex : Int) : Bool :=
  1 ≤ pollId.length && 0 ≤ optionIndex

/-- `ttsActionSchema`: a message of 1 to 200 characters. -/
def ttsActionValid (message : String) : Bool :=
  1 ≤ message.length && message.length ≤ 200

structure VoteReq where
  slug : String
  viewerWallet : String
  pollId : String
  optionIndex : Int
  deriving Repr, DecidableEq

structure TtsReq where
  slug : String
  viewerWallet : String
  message : String
  deriving Repr, DecidableEq

/-- `POST /api/viewer/:slug/vote`, checks in source order: wallet schema,
vote schema, drop lookup (`findUnique` by slug, including the active poll
whose id matches), launched status with a populated mint, active-poll
presence, option range, holder threshold, the duplicate-vote lookup
(`payloadJson: { contains: request.body.pollId }` — substring containment,
not pollId equality), then insert and re-tally. -/
def submitVote (env : ViewerEnv) (st : DbState) (req : VoteReq) : DbState × ViewerResp :=
  if !env.validKey req.viewerWallet then (st, .invalidWallet)
  else if !voteActionValid req.pollId req.optionIndex then (st, .invalidVote)
  else
    match st.drops.find? (fun d => d.slug == req.slug) with
    | none => (st, .notFound)
    | some drop =>
      match drop.tokenMint with
      | none => (st, .notLaunched)
      | some mint =>
        if !(drop.status == Status.LAUNCHED) then (st, .notLaunched)
        else
          match (st.polls.filter
              (fun p => p.dropId == drop.id && p.id == req.pollId && p.isActive)).take 1 with
          | [] => (st, .pollNotFound)
          | poll :: _ =>
            if req.optionIndex < 0 || (poll.options.length : Int) ≤ req.optionIndex then
              (st, .invalidOption)
            else
              match checkHolderThreshold (env.balCache req.viewerWallet mint) env.now
                  env.ttlMs (env.balQuery req.viewerWallet mint) drop.holderThresholdRaw with
              | none => (st, .internalError)
              | some false => (st, .insufficientHolding drop.holderThresholdRaw)
              | some true =>
                match st.actions.find? (fun a =>
                    a.dropId == drop.id && a.viewerWallet == req.viewerWallet &&
                    a.type == ActionType.VOTE && strContains a.payloadJson req.pollId) with
                | some _ => (st, .duplicateVote)
                | none =>
                  let idx := req.optionIndex.toNat
                  let newAction : Action :=
                    ⟨drop.id, req.viewerWallet, .VOTE, renderVotePayload req.pollId idx⟩
                  let actions' := st.actions ++ [newAction]
                  ({ st with actions := actions' },
                   .voteOk idx (votePostCounts actions' drop.id req.pollId poll.options.length))

/-- `POST /api/viewer/:slug/tts`: wallet schema, message schema, drop
lookup, launched status, holder threshold, sanitization (`none` rejects),
then insert. -/
def submitTts (env : ViewerEnv) (st : DbState) (req : TtsReq) : DbState × ViewerResp :=
  if !env.validKey req.viewerWallet then (st, .invalidWallet)
  else if !ttsActionValid req.message then (st, .invalidMessage)
  else
    match st.drops.find? (fun d => d.slug == req.slug) with
    | none => (st, .notFound)
    | some drop =>
      match drop.tokenMint with
      | none => (st, .notLaunched)
      | some mint =>
        if !(drop.status == Status.LAUNCHED) then (st, .notLaunched)
        else
          match checkHolderThreshold (env.balCache req.viewerWallet mint) env.now
              env.ttlMs (env.balQuery req.viewerWallet mint) drop.holderThresholdRaw with
          | none => (st, .internalError)
          | some false => (st, .insufficientHolding drop.holderThresholdRaw)
          | some true =>
            match sanitizeTtsMessage req.message env.maxTtsLength with
            | none => (st, .messageRejected)
            | some msg =>
              ({ st with actions :=
                  st.actions ++ [⟨drop.id, req.viewerWallet, .TTS, renderMsgPayload msg⟩] },
               .ttsOk msg)

end LiveDrops

namespace LiveDrops

/-! ## Creator drop routes — `routes/drops.ts`

All of these run behind `requireAuth`; `userId` below is
`request.userId`.  Every handler scopes its lookup with
`prisma.drop.findFirst({ where: { slug, ownerUserId: request.userId } })`,
so a non-owner's request and an unknown slug take the same 404 path.
The Bags-service collaborator is an oracle of prearranged outcomes. -/

structure BagsEnv where
  tokenInfoResult : Except String (String × String)
  feeConfigResult : Except String String
  launchTxResult : Except String String

inductive DropResp where
  | badRequest
  | notFound
  | forbidden
  | invalidState (current : Status)
  | upstream (message : String)
  | okTokenInfo (mint metadataUrl : String)
  | okFeeConfig (configKey : String)
  | okConfigConfirmed (configKey : String)
  | okLaunchTx (tx : String)
  | okLaunched (signature : String)
  | okPollCreated (pollId : String)
  | okPollClosed (pollId : String)
  | okThreshold (raw : String)
  deriving Repr, DecidableEq

/-- The owner-scoped `findFirst` every mutating drop route starts with. -/
def findOwnedDrop (st : DbState) (slug userId : String) : Option Drop :=
  st.drops.find? (fun d => d.slug == slug && d.ownerUserId == userId)

/-- `prisma.drop.update({ where: { id } })`. -/
def updateDropIn (st : DbState) (dropId : String) (f : Drop → Drop) : DbState :=
  { st with drops := st.drops.map (fun d => if d.id == dropId then f d else d) }

/-- `POST /api/drops/:slug/create-token-info`: owner lookup; `DRAFT` guard;
Bags call; on success persist mint, metadata URL and the
`TOKEN_INFO_CREATED` status.  A Bags failure reaches no `update`. -/
def createTokenInfo (env : BagsEnv) (st : DbState) (userId slug : String) :
    DbState × DropResp :=
  match findOwnedDrop st slug userId with
  | none => (st, .notFound)
  | some drop =>
    if !(drop.status == Status.DRAFT) then (st, .invalidState drop.status)
    else
      match env.tokenInfoResult with
      | .error e => (st, .upstream e)
      | .ok (mint, meta) =>
        (updateDropIn st drop.id (fun d =>
          { d with tokenMint := some mint, tokenMetadataUrl := some meta,
                   status := Status.TOKEN_INFO_CREATED }),
         .okTokenInfo mint meta)

/-- `POST /api/drops/:slug/create-fee-config`: owner lookup;
`TOKEN_INFO_CREATED` guard; populated-mint guard; Bags call.  A pure
read/prepare step — no database write on any path. -/
def createFeeConfig (env : BagsEnv) (st : DbState) (userId slug : String) :
    DbState × DropResp :=
  match findOwnedDrop st slug userId with
  | none => (st, .notFound)
  | some drop =>
    if !(drop.status == Status.TOKEN_INFO_CREATED) then (st, .invalidState drop.status)
    else if drop.tokenMint == none then (st, .badRequest)
    else
      match env.feeConfigResult with
      | .error e => (st, .upstream e)
      | .ok key => (st, .okFeeConfig key)

/-- `POST /api/drops/:slug/confirm-fee-config`: body check
(`configKey` and a `signatures` array present) before the owner lookup;
`TOKEN_INFO_CREATED` guard; persist the key and `CONFIG_CREATED`. -/
def confirmFeeConfig (st : DbState) (userId slug : String)
    (configKey : String) (signatures : Option (List String)) : DbState × DropResp :=
  if configKey == "" || signatures == none then (st, .badRequest)
  else
    match findOwnedDrop st slug userId with
    | none => (st, .notFound)
    | some drop =>
      if !(drop.status == Status.TOKEN_INFO_CREATED) then (st, .invalidState drop.status)
      else
        (updateDropIn st drop.id (fun d =>
          { d with configKey := some configKey, status := Status.CONFIG_CREATED }),
         .okConfigConfirmed configKey)

/-- `POST /api/drops/:slug/create-launch-tx`: owner lookup;
`CONFIG_CREATED` guard; all prior artifacts present; Bags call; no
database write. -/
def createLaunchTx (env : BagsEnv) (st : DbState) (userId slug : String) :
    DbState × DropResp :=
  match findOwnedDrop st slug userId with
  | none => (st, .notFound)
  | some drop =>
    if !(drop.status == Status.CONFIG_CREATED) then (st, .invalidState drop.status)
    else if drop.tokenMint == none || drop.tokenMetadataUrl == none ||
        drop.configKey == none then (st, .badRequest)
    else
      match env.launchTxResult with
      | .error e => (st, .upstream e)
      | .ok tx => (st, .okLaunchTx tx)

/-- `POST /api/drops/:slug/confirm-launch`: body check before the owner
lookup; `CONFIG_CREATED` guard; persist the signature and `LAUNCHED`. -/
def confirmLaunch (st : DbState) (userId slug : String) (signature : String) :
    DbState × DropResp :=
  if signature == "" then (st, .badRequest)
  else
    match findOwnedDrop st slug userId with
    | none => (st, .notFound)
    | some drop =>
      if !(drop.status == Status.CONFIG_CREATED) then (st, .invalidState drop.status)
      else
        (updateDropIn st drop.id (fun d =>
          { d with launchSig := some signature, status := Status.LAUNCHED }),
         .okLaunched signature)

/-- The per-row effect of the poll route's
`updateMany({ where: { dropId, isActive: true }, data: { isActive: false } })`. -/
def deactivateFor (dropId : String) (p : Poll) : Poll :=
  if p.dropId == dropId && p.isActive then { p with isActive := false } else p

/-- The per-row effect of
`update({ where: { id }, data: { isActive: false } })`. -/
def closeById (pollId : String) (p : Poll) : Poll :=
  if p.id == pollId then { p with isActive := false } else p

/-- `createPollSchema`: a question of 1–200 characters and 2–6 options of
1–100 characters each. -/
def createPollValid (question : String) (options : List String) : Bool :=
  1 ≤ question.length && question.length ≤ 200 &&
  2 ≤ options.length && options.length ≤ 6 &&
  options.all (fun o => 1 ≤ o.length && o.length ≤ 100)

/-- `POST /api/drops/:slug/polls`: schema validation before the owner
lookup; `updateMany` deactivating the drop's active polls; `create` of the
new active poll (its id generated by the store, passed in as `newId`). -/
def createPollRoute (st : DbState) (userId slug : String)
    (question : String) (options : List String) (newId : String) : DbState × DropResp :=
  if !createPollValid question options then (st, .badRequest)
  else
    match findOwnedDrop st slug userId with
    | none => (st, .notFound)
    | some drop =>
      let polls' := st.polls.map (deactivateFor drop.id)
      ({ st with polls := polls' ++ [⟨newId, drop.id, question, options, true⟩] },
       .okPollCreated newId)

/-- `DELETE /api/drops/:slug/polls/:pollId`: owner lookup; poll lookup
scoped to the drop; `update` setting `isActive` to false. -/
def closePollRoute (st : DbState) (userId slug pollId : String) : DbState × DropResp :=
  match findOwnedDrop st slug userId with
  | none => (st, .notFound)
  | some drop =>
    match st.polls.find? (fun p => p.id == pollId && p.dropId == drop.id) with
    | none => (st, .notFound)
    | some poll =>
      ({ st with polls := st.polls.map (closeById poll.id) }, .okPollClosed poll.id)

/-- `PUT /api/drops/:slug/threshold`: `/^\d+$/` body check before the
owner lookup; persist the new raw threshold. -/
def updateThreshold (st : DbState) (userId slug raw : String) : DbState × DropResp :=
  if !isDigitString raw then (st, .badRequest)
  else
    match findOwnedDrop st slug userId with
    | none => (st, .notFound)
    | some drop =>
      (updateDropIn st drop.id (fun d => { d with holderThresholdRaw := raw }),
       .okThreshold raw)

end LiveDrops

namespace LiveDrops

/-! ## Challenge/Session Authenticator — `services/session.ts` and the
`POST /api/auth/verify` handler of `routes/auth.ts`

The in-memory nonce store (`Map<string, {message, issuedAtMs}>`) is an
association list; signature decoding and `nacl` verification are oracles
of the environment, as are the minted session token and its SHA-256 hash
(the handler only moves those values around). -/

structure NonceEntry where
  message : String
  issuedAtMs : Nat
  deriving Repr, DecidableEq

abbrev NonceStore := List (String × NonceEntry)

def NONCE_TTL_MS : Nat := 5 * 60 * 1000

def nonceGet (store : NonceStore) (wallet : String) : Option NonceEntry :=
  (List.find? (fun e => e.1 == wallet) store).map (·.2)

def nonceDel (store : NonceStore) (wallet : String) : NonceStore :=
  List.filter (fun e => !(e.1 == wallet)) store

def nonceSet (store : NonceStore) (wallet : String) (v : NonceEntry) : NonceStore :=
  nonceDel store wallet ++ [(wallet, v)]

/-- `storeNonce`: opportunistic sweep of entries older than the TTL, then
one active nonce per wallet (newest overwrites old). -/
def storeNonce (store : NonceStore) (now : Nat) (wallet message : String) : NonceStore :=
  let cutoff := now - NONCE_TTL_MS
  let swept := List.filter (fun e => !((e : String × NonceEntry).2.issuedAtMs < cutoff)) store
  nonceSet swept wallet ⟨message, now⟩

/-- `consumeNonce`: absent ↦ `null`; expired ↦ delete and `null`;
otherwise delete (single use) and return the stored message. -/
def consumeNonce (store : NonceStore) (now : Nat) (wallet : String) :
    Option String × NonceStore :=
  match nonceGet store wallet with
  | none => (none, store)
  | some stored =>
    if NONCE_TTL_MS < now - stored.issuedAtMs then (none, nonceDel store wallet)
    else (some stored.message, nonceDel store wallet)

structure SessionRow where
  cookieTokenHash : String
  userId : String
  expiresAt : Nat
  deriving Repr, DecidableEq

structure AuthState where
  nonces : NonceStore
  users : List (String × String)
  sessions : List SessionRow
  deriving DecidableEq

structure AuthEnv where
  validKey : String → Bool
  validSigFormat : String → Bool
  sigVerify : String → String → String → Bool
  now : Nat
  newUserId : String
  newToken : String
  hashOf : String → String
  sessionExpiryMs : Nat

inductive AuthResp where
  | badRequest
  | nonceError
  | invalidSignature
  | verified (userId token : String)
  deriving Repr, DecidableEq

structure VerifyReq where
  walletPubkey : String
  signature : String
  message : String
  deriving Repr, DecidableEq

/-- The find-or-create of the User row keyed by wallet public key. -/
def findOrCreateUser (env : AuthEnv) (users : List (String × String)) (w : String) :
    String × List (String × String) :=
  match List.find? (fun u => u.1 == w) users with
  | some u => (u.2, users)
  | none => (env.newUserId, users ++ [(w, env.newUserId)])

/-- `POST /api/auth/verify`: schema validation (`authVerifySchema`); nonce
consumption and byte-for-byte message comparison (`storedMessage !==
message`), the consumption taking effect on every outcome; `nacl`
signature verification; find-or-create of the User; session creation
persisting only the token's hash. -/
def verifyAndCreateSession (env : AuthEnv) (st : AuthState) (req : VerifyReq) :
    AuthState × AuthResp :=
  if !(env.validKey req.walletPubkey && env.validSigFormat req.signature &&
      1 ≤ req.message.length) then (st, .badRequest)
  else
    match consumeNonce st.nonces env.now req.walletPubkey with
    | (stored, nonces') =>
      let st' := { st with nonces := nonces' }
      match stored with
      | none => (st', .nonceError)
      | some storedMessage =>
        if !(storedMessage == req.message) then (st', .nonceError)
        else if !env.sigVerify req.walletPubkey req.signature req.message then
          (st', .invalidSignature)
        else
          let fc := findOrCreateUser env st'.users req.walletPubkey
          let newSession : SessionRow :=
            ⟨env.hashOf env.newToken, fc.1, env.now + env.sessionExpiryMs⟩
          ({ st' with users := fc.2, sessions := st'.sessions ++ [newSession] },
           .verified fc.1 env.newToken)

end LiveDrops

namespace LiveDrops

/-! ## Poll operation sequences (for the single-active-poll invariant) -/

/-- No two polls of the list are simultaneously active for the same
drop. -/
def AtMostOneActive (polls : List Poll) : Prop :=
  polls.Pairwise (fun p q => p.isActive = true → q.isActive = true → p.dropId ≠ q.dropId)

/-- A creator-side poll operation: the poll routes, with the store's
generated id supplied for a creation. -/
inductive PollOp where
  | create (userId slug question : String) (options : List String) (newId : String)
  | close (userId slug pollId : String)

def applyPollOp (st : DbState) : PollOp → DbState
  | .create u sl q os i => (createPollRoute st u sl q os i).1
  | .close u sl p => (closePollRoute st u sl p).1

def applyPollOps (st : DbState) (ops : List PollOp) : DbState :=
  ops.foldl applyPollOp st

end LiveDrops

namespace LiveDrops

/-! ## Shared helper lemmas -/

theorem digit_not_ws {c : Char} (h : isAsciiDigit c = true) : isJsWs c = false := by
  simp only [isAsciiDigit, Bool.and_eq_true, decide_eq_true_eq] at h
  simp only [isJsWs, Bool.or_eq_false_iff, beq_eq_false_iff_ne]
  refine ⟨⟨⟨⟨⟨?_, ?_⟩, ?_⟩, ?_⟩, ?_⟩, ?_⟩ <;> (rintro rfl; revert h; decide)

theorem dropWhile_of_head_neg {p : Char → Bool} :
    ∀ {l : List Char}, (∀ c ∈ l, p c = false) → l.dropWhile p = l := by
  intro l h
  cases l with
  | nil => rfl
  | cons c t => simp [List.dropWhile, h c (List.mem_cons_self c t)]

theorem jsTrim_of_no_ws {l : List Char} (h : ∀ c ∈ l, isJsWs c = false) : jsTrim l = l := by
  unfold jsTrim
  rw [dropWhile_of_head_neg h, dropWhile_of_head_neg (by simpa using h), List.reverse_reverse]

theorem takeWhile_of_all {p : Char → Bool} :
    ∀ {l : List Char}, (∀ c ∈ l, p c = true) → l.takeWhile p = l := by
  intro l h
  induction l with
  | nil => rfl
  | cons c t ih =>
    simp [List.takeWhile_cons, h c (List.mem_cons_self c t),
      ih (fun d hd => h d (List.mem_cons_of_mem c hd))]

theorem isPrefixOf_self_append : ∀ (p b : List Char), p.isPrefixOf (p ++ b) = true := by
  intro p b
  induction p with
  | nil => simp [List.isPrefixOf]
  | cons c cs ih => simp [List.isPrefixOf, ih]

theorem listContains_nil_pat : ∀ (hay : List Char), listContains hay [] = true := by
  intro hay
  cases hay <;> simp [listContains, List.isPrefixOf]

theorem listContains_self_append : ∀ (p b : List Char), listContains (p ++ b) p = true := by
  intro p b
  cases p with
  | nil => exact listContains_nil_pat b
  | cons c cs =>
    show listContains (c :: (cs ++ b)) (c :: cs) = true
    simp only [listContains, Bool.or_eq_true]
    exact Or.inl (isPrefixOf_self_append (c :: cs) b)

theorem listContains_append_mid : ∀ (a p b : List Char), listContains (a ++ (p ++ b)) p = true := by
  intro a p b
  induction a with
  | nil => exact listContains_self_append p b
  | cons x rest ih =>
    show listContains (x :: (rest ++ (p ++ b))) p = true
    simp only [listContains, Bool.or_eq_true]
    exact Or.inr ih

/-- `renderVotePayload pollId n` contains `pollId` as a substring — the
stored payload of a vote always matches the `contains` duplicate filter
for its own poll id. -/
theorem strContains_renderVotePayload (pollId : String) (n : Nat) :
    strContains (renderVotePayload pollId n) pollId = true := by
  unfold strContains renderVotePayload
  simp only [String.data_append, List.append_assoc]
  exact listContains_append_mid _ _ _

end LiveDrops

namespace LiveDrops

/-! ## C7 — threshold comparison semantics -/

/-- C7: `checkHolderThreshold` returns true exactly when the gate balance
is at least the numeric value of the threshold string, both as unbounded
naturals (`bigint` in the source — no floating-point step exists in
`getTokenBalance`/`checkHolderThreshold`), and the `"0"` threshold is
satisfied for every wallet, cache state and query outcome. -/
theorem C7_threshold_semantics :
    ∀ (cached : Option BalanceCacheEntry) (now ttlMs : Nat)
      (q : Except Unit (List (Option Nat))) (thr : String),
      isDigitString thr = true →
      ((checkHolderThreshold cached now ttlMs q thr = some true) ↔
        natOfDigits thr.data ≤ (getTokenBalance cached now ttlMs q).balance) ∧
      checkHolderThreshold cached now ttlMs q "0" = some true := by
  intro cached now ttlMs q thr hthr
  simp only [isDigitString, Bool.and_eq_true, decide_eq_true_eq, List.all_eq_true] at hthr
  constructor
  · unfold checkHolderThreshold bigIntOfString
    rw [jsTrim_of_no_ws (fun c hc => digit_not_ws (hthr.2 c hc))]
    have hne : ¬ (thr.data = []) := hthr.1
    simp [hne, List.all_eq_true.mpr hthr.2]
  · unfold checkHolderThreshold
    have h0 : bigIntOfString "0" = some 0 := rfl
    rw [h0]
    simp

/-- Witness for C7 at the threshold `"25"`, a stale cache entry and a
successful two-account query summing to `30`. -/
theorem C7_witness :
    (checkHolderThreshold (some ⟨1, 0⟩) 999999 15000 (.ok [some 10, some 20]) "25" = some true) ∧
    checkHolderThreshold (some ⟨1, 0⟩) 999999 15000 (.ok [some 10, some 20]) "0" = some true := by
  have h := C7_threshold_semantics (some ⟨1, 0⟩) 999999 15000 (.ok [some 10, some 20]) "25"
    (by decide)
  exact ⟨h.1.mpr (by decide), h.2⟩

/-! ## C8 — the balance gate degrades instead of failing -/

/-- C8: `getTokenBalance` (a total function — the RPC error is caught and
never propagated) returns a cache entry younger than the TTL without
issuing an upstream query; on a query failure it falls back to the cached
balance whenever an entry exists — with no freshness condition, so a
stale entry is served too — and to zero when none does. -/
theorem C8_balance_degrades :
    ∀ (cached : Option BalanceCacheEntry) (now ttlMs : Nat)
      (q : Except Unit (List (Option Nat))),
      (∀ c, cached = some c → now - c.timestamp < ttlMs →
        getTokenBalance cached now ttlMs q =
          { balance := c.balance, cacheAfter := cached, queried := false }) ∧
      (∀ c, cached = some c → q = .error () →
        (getTokenBalance cached now ttlMs q).balance = c.balance) ∧
      (cached = none → q = .error () →
        (getTokenBalance cached now ttlMs q).balance = 0) := by
  intro cached now ttlMs q
  refine ⟨?_, ?_, ?_⟩
  · rintro c rfl hfresh
    simp [getTokenBalance, hfresh]
  · rintro c rfl rfl
    by_cases hfresh : now - c.timestamp < ttlMs <;> simp [getTokenBalance, hfresh]
  · rintro rfl rfl
    simp [getTokenBalance]

/-- Witness for C8: a fresh hit without a query, an error served from a
stale entry, and an error with an empty cache. -/
theorem C8_witness :
    getTokenBalance (some ⟨7, 100⟩) 110 15000 (.error ()) =
      { balance := 7, cacheAfter := some ⟨7, 100⟩, queried := false } ∧
    (getTokenBalance (some ⟨7, 0⟩) 999999 15000 (.error ())).balance = 7 ∧
    (getTokenBalance none 5 15000 (.error ())).balance = 0 := by
  refine ⟨(C8_balance_degrades (some ⟨7, 100⟩) 110 15000 (.error ())).1 ⟨7, 100⟩ rfl (by decide),
    (C8_balance_degrades (some ⟨7, 0⟩) 999999 15000 (.error ())).2.1 ⟨7, 0⟩ rfl rfl,
    (C8_balance_degrades none 5 15000 (.error ())).2.2 rfl rfl⟩

end LiveDrops

namespace LiveDrops

/-! ## C10 — poll creation size limits -/

/-- C10: `createPollSchema` accepts exactly a question of 1–200 characters
together with 2–6 options of 1–100 characters each, and the poll route
rejects any other request before touching the store — the returned state
is the input state, so no Poll record is created. -/
theorem C10_poll_validation_bounds :
    ∀ (question : String) (options : List String) (st : DbState)
      (userId slug newId : String),
      ((createPollValid question options = true) ↔
        (1 ≤ question.length ∧ question.length ≤ 200 ∧
         2 ≤ options.length ∧ options.length ≤ 6 ∧
         ∀ o ∈ options, 1 ≤ o.length ∧ o.length ≤ 100)) ∧
      (¬ (1 ≤ question.length ∧ question.length ≤ 200 ∧
          2 ≤ options.length ∧ options.length ≤ 6 ∧
          ∀ o ∈ options, 1 ≤ o.length ∧ o.length ≤ 100) →
        createPollRoute st userId slug question options newId = (st, .badRequest)) := by
  intro question options st userId slug newId
  have hiff : (createPollValid question options = true) ↔
      (1 ≤ question.length ∧ question.length ≤ 200 ∧
       2 ≤ options.length ∧ options.length ≤ 6 ∧
       ∀ o ∈ options, 1 ≤ o.length ∧ o.length ≤ 100) := by
    simp [createPollValid, List.all_eq_true, and_assoc]
  refine ⟨hiff, fun hbad => ?_⟩
  have hfalse : createPollValid question options = false := by
    cases hval : createPollValid question options with
    | false => rfl
    | true => exact absurd (hiff.mp hval) hbad
  simp [createPollRoute, hfalse]

/-- Witness for C10: a one-option request is rejected and creates
nothing. -/
theorem C10_witness :
    createPollRoute ⟨[], [], []⟩ "u1" "s1" "q?" ["only"] "p1" =
      (⟨[], [], []⟩, .badRequest) := by
  exact (C10_poll_validation_bounds "q?" ["only"] ⟨[], [], []⟩ "u1" "s1" "p1").2 (by decide)

/-! ## C2 — the viewer tally counts votes of other polls -/

/-- C2 (failing input): the `GET /api/viewer/:slug` aggregation, with an
active two-option poll `p1` and a single VOTE action recorded for a
different poll `p0`, reports `[1, 0]` — the foreign vote contributes to
option 0 even though its parsed `pollId` is `p0 ≠ p1` — whereas the
pollId-filtered aggregation used by the vote route and both overlay
endpoints reports `[0, 0]` for the same ledger. -/
theorem C2_viewer_tally_missing_pollId_filter :
    viewerGetVoteCounts [⟨"d1", "w", .VOTE, renderVotePayload "p0" 0⟩] "d1" 2 = [1, 0] ∧
    (parseVotePayload (renderVotePayload "p0" 0)).map Prod.fst = some "p0" ∧
    ("p0" : String) ≠ "p1" ∧
    votePostCounts [⟨"d1", "w", .VOTE, renderVotePayload "p0" 0⟩] "d1" "p1" 2 = [0, 0] := by
  exact ⟨by rfl, by rfl, by decide, by rfl⟩

end LiveDrops

namespace LiveDrops

/-! ## C3 — strict forward launch state machine -/

/-- C3: with the owner-scoped lookup resolving to `drop`,
`create-token-info` fails and returns the state untouched whenever the
status is not exactly `DRAFT` (in particular from `CONFIG_CREATED` or
`LAUNCHED`), and on success moves `DRAFT` one step forward to
`TOKEN_INFO_CREATED`; `confirm-launch` (with a non-empty signature body)
fails and changes nothing unless the status is exactly `CONFIG_CREATED`,
and on success moves it to `LAUNCHED`.  No handler writes any other
status, so no step is skipped and none goes backward. -/
theorem C3_state_machine_guards :
    ∀ (env : BagsEnv) (st : DbState) (userId slug sig : String) (drop : Drop),
      findOwnedDrop st slug userId = some drop →
      (drop.status ≠ .DRAFT →
        createTokenInfo env st userId slug = (st, .invalidState drop.status)) ∧
      (∀ mint meta, drop.status = .DRAFT → env.tokenInfoResult = .ok (mint, meta) →
        createTokenInfo env st userId slug =
          (updateDropIn st drop.id (fun d =>
            { d with tokenMint := some mint, tokenMetadataUrl := some meta,
                     status := .TOKEN_INFO_CREATED }), .okTokenInfo mint meta)) ∧
      (sig ≠ "" → drop.status ≠ .CONFIG_CREATED →
        confirmLaunch st userId slug sig = (st, .invalidState drop.status)) ∧
      (sig ≠ "" → drop.status = .CONFIG_CREATED →
        confirmLaunch st userId slug sig =
          (updateDropIn st drop.id (fun d =>
            { d with launchSig := some sig, status := .LAUNCHED }), .okLaunched sig)) := by
  intro env st userId slug sig drop hfind
  refine ⟨fun hne => ?_, fun mint meta hdraft hok => ?_, fun hsig hne => ?_,
    fun hsig hcfg => ?_⟩
  · simp [createTokenInfo, hfind, beq_eq_false_iff_ne.mpr hne]
  · simp [createTokenInfo, hfind, hdraft, hok]
  · simp [confirmLaunch, beq_eq_false_iff_ne.mpr hsig, hfind, beq_eq_false_iff_ne.mpr hne]
  · simp [confirmLaunch, beq_eq_false_iff_ne.mpr hsig, hfind, hcfg]

/-- Witness for C3 on a drop stuck in `CONFIG_CREATED`: advancing to token
info fails with the state-conflict error and leaves the state unchanged,
while confirming the launch succeeds into `LAUNCHED`. -/
theorem C3_witness :
    createTokenInfo ⟨.ok ("m", "u"), .ok "k", .ok "t"⟩
      ⟨[{ id := "d1", slug := "s1", ownerUserId := "u1", name := "n", symbol := "SYM",
          description := "d", status := .CONFIG_CREATED, tokenMint := some "m",
          tokenMetadataUrl := some "u", configKey := some "k", launchSig := none,
          prizePoolWallet := "pw", streamerBps := 5000, prizePoolBps := 5000,
          holderThresholdRaw := "0", initialBuyLamports := "10000000" }], [], []⟩
      "u1" "s1" =
      (⟨[{ id := "d1", slug := "s1", ownerUserId := "u1", name := "n", symbol := "SYM",
           description := "d", status := .CONFIG_CREATED, tokenMint := some "m",
           tokenMetadataUrl := some "u", configKey := some "k", launchSig := none,
           prizePoolWallet := "pw", streamerBps := 5000, prizePoolBps := 5000,
           holderThresholdRaw := "0", initialBuyLamports := "10000000" }], [], []⟩,
       .invalidState .CONFIG_CREATED) ∧
    (confirmLaunch
      ⟨[{ id := "d1", slug := "s1", ownerUserId := "u1", name := "n", symbol := "SYM",
          description := "d", status := .CONFIG_CREATED, tokenMint := some "m",
          tokenMetadataUrl := some "u", configKey := some "k", launchSig := none,
          prizePoolWallet := "pw", streamerBps := 5000, prizePoolBps := 5000,
          holderThresholdRaw := "0", initialBuyLamports := "10000000" }], [], []⟩
      "u1" "s1" "sig1").2 = .okLaunched "sig1" := by
  have h := C3_state_machine_guards ⟨.ok ("m", "u"), .ok "k", .ok "t"⟩
    ⟨[{ id := "d1", slug := "s1", ownerUserId := "u1", name := "n", symbol := "SYM",
        description := "d", status := .CONFIG_CREATED, tokenMint := some "m",
        tokenMetadataUrl := some "u", configKey := some "k", launchSig := none,
        prizePoolWallet := "pw", streamerBps := 5000, prizePoolBps := 5000,
        holderThresholdRaw := "0", initialBuyLamports := "10000000" }], [], []⟩
    "u1" "s1" "sig1"
    { id := "d1", slug := "s1", ownerUserId := "u1", name := "n", symbol := "SYM",
      description := "d", status := .CONFIG_CREATED, tokenMint := some "m",
      tokenMetadataUrl := some "u", configKey := some "k", launchSig := none,
      prizePoolWallet := "pw", streamerBps := 5000, prizePoolBps := 5000,
      holderThresholdRaw := "0", initialBuyLamports := "10000000" }
    (by rfl)
  exact ⟨h.1 (by decide), by rw [h.2.2.2 (by decide) rfl]⟩

/-! ## C9 — non-owner mutations behave as "not found" -/

/-- C9: when every drop carrying the requested slug belongs to someone
other than the authenticated user — which also covers the case of no such
slug at all — each of the eight mutating drop routes (given a body that
passes its own validation) returns the `NotFound` rejection with the
state untouched, one single behaviour for "absent" and "not yours", and
never the `Forbidden` response. -/
theorem C9_nonowner_notfound :
    ∀ (benv : BagsEnv) (st : DbState) (userId slug : String)
      (configKey : String) (sigs : Option (List String)) (sig q : String)
      (os : List String) (newId pollId raw : String),
      (∀ d ∈ st.drops, d.slug = slug → d.ownerUserId ≠ userId) →
      configKey ≠ "" → sigs.isNone = false → sig ≠ "" →
      createPollValid q os = true → isDigitString raw = true →
      createTokenInfo benv st userId slug = (st, .notFound) ∧
      createFeeConfig benv st userId slug = (st, .notFound) ∧
      confirmFeeConfig st userId slug configKey sigs = (st, .notFound) ∧
      createLaunchTx benv st userId slug = (st, .notFound) ∧
      confirmLaunch st userId slug sig = (st, .notFound) ∧
      createPollRoute st userId slug q os newId = (st, .notFound) ∧
      closePollRoute st userId slug pollId = (st, .notFound) ∧
      updateThreshold st userId slug raw = (st, .notFound) := by
  intro benv st userId slug configKey sigs sig q os newId pollId raw
  intro hown hck hsigs hsig hpoll hraw
  have hfind : findOwnedDrop st slug userId = none := by
    apply List.find?_eq_none.mpr
    intro d hd
    simp only [Bool.and_eq_true, beq_iff_eq, not_and]
    exact fun hs => hown d hd hs
  refine ⟨?_, ?_, ?_, ?_, ?_, ?_, ?_, ?_⟩
  · simp [createTokenInfo, hfind]
  · simp [createFeeConfig, hfind]
  · have hs2 : ¬ sigs = none := by cases sigs <;> simp_all
    simp [confirmFeeConfig, hfind, beq_eq_false_iff_ne.mpr hck, hs2]
  · simp [createLaunchTx, hfind]
  · simp [confirmLaunch, hfind, beq_eq_false_iff_ne.mpr hsig]
  · simp [createPollRoute, hfind, hpoll]
  · simp [closePollRoute, hfind]
  · simp [updateThreshold, hfind, hraw]

end LiveDrops

namespace LiveDrops

/-- Witness for C9: a drop with slug `s1` owned by `owner1`; the
authenticated user `intruder` gets `NotFound` from all eight mutations
with the state unchanged. -/
theorem C9_witness :
    createTokenInfo ⟨.ok ("m", "u"), .ok "k", .ok "t"⟩
      ⟨[{ id := "d1", slug := "s1", ownerUserId := "owner1", name := "n", symbol := "SYM",
          description := "d", status := .DRAFT, tokenMint := none,
          tokenMetadataUrl := none, configKey := none, launchSig := none,
          prizePoolWallet := "pw", streamerBps := 5000, prizePoolBps := 5000,
          holderThresholdRaw := "0", initialBuyLamports := "10000000" }], [], []⟩
      "intruder" "s1" =
      (⟨[{ id := "d1", slug := "s1", ownerUserId := "owner1", name := "n", symbol := "SYM",
           description := "d", status := .DRAFT, tokenMint := none,
           tokenMetadataUrl := none, configKey := none, launchSig := none,
           prizePoolWallet := "pw", streamerBps := 5000, prizePoolBps := 5000,
           holderThresholdRaw := "0", initialBuyLamports := "10000000" }], [], []⟩,
       .notFound) ∧
    updateThreshold
      ⟨[{ id := "d1", slug := "s1", ownerUserId := "owner1", name := "n", symbol := "SYM",
          description := "d", status := .DRAFT, tokenMint := none,
          tokenMetadataUrl := none, configKey := none, launchSig := none,
          prizePoolWallet := "pw", streamerBps := 5000, prizePoolBps := 5000,
          holderThresholdRaw := "0", initialBuyLamports := "10000000" }], [], []⟩
      "intruder" "s1" "42" =
      (⟨[{ id := "d1", slug := "s1", ownerUserId := "owner1", name := "n", symbol := "SYM",
           description := "d", status := .DRAFT, tokenMint := none,
           tokenMetadataUrl := none, configKey := none, launchSig := none,
           prizePoolWallet := "pw", streamerBps := 5000, prizePoolBps := 5000,
           holderThresholdRaw := "0", initialBuyLamports := "10000000" }], [], []⟩,
       .notFound) := by
  have h := C9_nonowner_notfound ⟨.ok ("m", "u"), .ok "k", .ok "t"⟩
    ⟨[{ id := "d1", slug := "s1", ownerUserId := "owner1", name := "n", symbol := "SYM",
        description := "d", status := .DRAFT, tokenMint := none,
        tokenMetadataUrl := none, configKey := none, launchSig := none,
        prizePoolWallet := "pw", streamerBps := 5000, prizePoolBps := 5000,
        holderThresholdRaw := "0", initialBuyLamports := "10000000" }], [], []⟩
    "intruder" "s1" "ck" (some ["sig"]) "sig" "q?" ["a", "b"] "p1" "p0" "42"
    (by decide) (by decide) (by decide) (by decide) (by decide) (by decide)
  exact ⟨h.1, h.2.2.2.2.2.2.2⟩

end LiveDrops

namespace LiveDrops

/-! ## C4 — nonces are consumed exactly once, on every outcome -/

theorem nonceGet_nonceDel (store : NonceStore) (w : String) :
    nonceGet (nonceDel store w) w = none := by
  unfold nonceGet nonceDel
  rw [Option.map_eq_none', List.find?_eq_none]
  intro e he
  have := (List.mem_filter.mp he).2
  simp only [Bool.not_eq_eq_eq_not, Bool.not_true] at this
  simp [this]

/-- C4: with a live (unexpired) nonce stored for the wallet and a passing
schema, a verification presenting the stored challenge with a valid
signature succeeds and deletes the nonce, so the identical resubmission
fails with the nonce error; presenting any other message fails with the
nonce error and still deletes the nonce. -/
theorem C4_nonce_single_use :
    ∀ (env : AuthEnv) (st : AuthState) (w s m : String) (entry : NonceEntry),
      env.validKey w = true → env.validSigFormat s = true → 1 ≤ m.length →
      nonceGet st.nonces w = some entry →
      ¬ (NONCE_TTL_MS < env.now - entry.issuedAtMs) →
      entry.message = m →
      env.sigVerify w s m = true →
      ((verifyAndCreateSession env st ⟨w, s, m⟩).2 =
        .verified (findOrCreateUser env st.users w).1 env.newToken) ∧
      nonceGet (verifyAndCreateSession env st ⟨w, s, m⟩).1.nonces w = none ∧
      (verifyAndCreateSession env (verifyAndCreateSession env st ⟨w, s, m⟩).1
        ⟨w, s, m⟩).2 = .nonceError ∧
      (∀ m', m' ≠ m → 1 ≤ m'.length →
        (verifyAndCreateSession env st ⟨w, s, m'⟩).2 = .nonceError ∧
        nonceGet (verifyAndCreateSession env st ⟨w, s, m'⟩).1.nonces w = none) := by
  intro env st w s m entry hkey hfmt hlen hget hfresh hmsg hsig
  have hconsume : consumeNonce st.nonces env.now w = (some m, nonceDel st.nonces w) := by
    simp [consumeNonce, hget, hfresh, hmsg]
  have hfirst :
      verifyAndCreateSession env st ⟨w, s, m⟩ =
        (let st' : AuthState := { st with nonces := nonceDel st.nonces w }
         let fc := findOrCreateUser env st'.users w
         ({ st' with users := fc.2, sessions := st'.sessions ++
             [⟨env.hashOf env.newToken, fc.1, env.now + env.sessionExpiryMs⟩] },
          .verified fc.1 env.newToken)) := by
    simp [verifyAndCreateSession, hkey, hfmt, hlen, hconsume, hsig]
  refine ⟨?_, ?_, ?_, ?_⟩
  · rw [hfirst]
  · rw [hfirst]
    exact nonceGet_nonceDel st.nonces w
  · rw [hfirst]
    have hgone : consumeNonce (nonceDel st.nonces w) env.now w =
        (none, nonceDel st.nonces w) := by
      simp [consumeNonce, nonceGet_nonceDel]
    simp [verifyAndCreateSession, hkey, hfmt, hlen, hgone]
  · intro m' hne hlen'
    have hmismatch : (m == m') = false := beq_eq_false_iff_ne.mpr (fun h => hne h.symm)
    have hcons' : consumeNonce st.nonces env.now w = (some m, nonceDel st.nonces w) :=
      hconsume
    constructor
    · simp [verifyAndCreateSession, hkey, hfmt, hlen', hcons', hmismatch]
    · simp [verifyAndCreateSession, hkey, hfmt, hlen', hcons', hmismatch,
        nonceGet_nonceDel]

/-- Witness for C4 at a concrete store holding a fresh nonce for wallet
`w`: success then consumption, failed replay, and a mismatched message
consuming the nonce. -/
theorem C4_witness :
    (verifyAndCreateSession
        ⟨fun _ => true, fun _ => true, fun _ _ _ => true, 1000, "u1", "tok",
         fun h => h, 3600000⟩
        ⟨[("w", ⟨"msg", 0⟩)], [], []⟩ ⟨"w", "sg", "msg"⟩).2 = .verified "u1" "tok" ∧
    (verifyAndCreateSession
        ⟨fun _ => true, fun _ => true, fun _ _ _ => true, 1000, "u1", "tok",
         fun h => h, 3600000⟩
        (verifyAndCreateSession
          ⟨fun _ => true, fun _ => true, fun _ _ _ => true, 1000, "u1", "tok",
           fun h => h, 3600000⟩
          ⟨[("w", ⟨"msg", 0⟩)], [], []⟩ ⟨"w", "sg", "msg"⟩).1 ⟨"w", "sg", "msg"⟩).2 =
      .nonceError ∧
    (verifyAndCreateSession
        ⟨fun _ => true, fun _ => true, fun _ _ _ => true, 1000, "u1", "tok",
         fun h => h, 3600000⟩
        ⟨[("w", ⟨"msg", 0⟩)], [], []⟩ ⟨"w", "sg", "other"⟩).2 = .nonceError := by
  have h := C4_nonce_single_use
    ⟨fun _ => true, fun _ => true, fun _ _ _ => true, 1000, "u1", "tok",
     fun h => h, 3600000⟩
    ⟨[("w", ⟨"msg", 0⟩)], [], []⟩ "w" "sg" "msg" ⟨"msg", 0⟩
    rfl rfl (by decide) rfl (by decide) rfl rfl
  exact ⟨h.1, h.2.2.1, (h.2.2.2 "other" (by decide) (by decide)).1⟩

end LiveDrops

namespace LiveDrops

/-! ## C5 — at most one active poll per drop -/

theorem deactivateFor_dropId (did : String) (p : Poll) :
    (deactivateFor did p).dropId = p.dropId := by
  unfold deactivateFor; split <;> rfl

theorem deactivateFor_isActive {did : String} {p : Poll}
    (h : (deactivateFor did p).isActive = true) :
    p.isActive = true ∧ p.dropId ≠ did := by
  revert h
  unfold deactivateFor
  split
  · intro h; exact absurd h (by simp)
  · next hcond =>
    intro h
    refine ⟨h, fun hd => hcond ?_⟩
    simp [hd, h]

theorem closeById_dropId (pid : String) (p : Poll) :
    (closeById pid p).dropId = p.dropId := by
  unfold closeById; split <;> rfl

theorem closeById_isActive {pid : String} {p : Poll}
    (h : (closeById pid p).isActive = true) : closeById pid p = p := by
  revert h
  unfold closeById
  split
  · intro h; exact absurd h (by simp)
  · intro _; rfl

theorem amoa_createPollRoute (st : DbState) (u sl q : String) (os : List String)
    (i : String) (h : AtMostOneActive st.polls) :
    AtMostOneActive ((createPollRoute st u sl q os i).1).polls := by
  unfold createPollRoute
  split
  · exact h
  · cases hfind : findOwnedDrop st sl u with
    | none => simpa using h
    | some drop =>
      simp only [AtMostOneActive]
      rw [List.pairwise_append]
      refine ⟨?_, by simp, ?_⟩
      · rw [List.pairwise_map]
        refine h.imp ?_
        intro a b hab ha hb
        rw [deactivateFor_dropId, deactivateFor_dropId]
        exact hab (deactivateFor_isActive ha).1 (deactivateFor_isActive hb).1
      · intro a ha b hb hact _
        simp only [List.mem_singleton] at hb
        subst hb
        obtain ⟨p0, _, rfl⟩ := List.mem_map.mp ha
        rw [deactivateFor_dropId]
        exact (deactivateFor_isActive hact).2

theorem amoa_closePollRoute (st : DbState) (u sl pid : String)
    (h : AtMostOneActive st.polls) :
    AtMostOneActive ((closePollRoute st u sl pid).1).polls := by
  unfold closePollRoute
  cases hfind : findOwnedDrop st sl u with
  | none => simpa using h
  | some drop =>
    cases hpoll : List.find? (fun p => p.id == pid && p.dropId == drop.id) st.polls with
    | none => simp only [hpoll]; exact h
    | some poll =>
      simp only [hpoll, AtMostOneActive]
      rw [List.pairwise_map]
      refine h.imp ?_
      intro a b hab ha hb
      rw [closeById_dropId, closeById_dropId]
      have ea := closeById_isActive ha
      have eb := closeById_isActive hb
      rw [ea] at ha; rw [eb] at hb
      exact hab ha hb

/-- C5: the invariant "at most one poll of any drop is active" is
preserved by every sequence of poll creations (which first deactivate the
drop's active polls, then insert the one new active poll) and closures;
and closing a poll only ever removes activity — every poll still active
afterwards was already a row of the state before, so no earlier poll is
reopened. -/
theorem C5_at_most_one_active_poll :
    (∀ (st : DbState) (ops : List PollOp),
      AtMostOneActive st.polls → AtMostOneActive (applyPollOps st ops).polls) ∧
    (∀ (st : DbState) (u sl pid : String) (x : Poll),
      x ∈ ((closePollRoute st u sl pid).1).polls → x.isActive = true → x ∈ st.polls) := by
  constructor
  · intro st ops
    induction ops generalizing st with
    | nil => exact fun h => h
    | cons op rest ih =>
      intro h
      have hstep : AtMostOneActive (applyPollOp st op).polls := by
        cases op with
        | create u sl q os i => exact amoa_createPollRoute st u sl q os i h
        | close u sl p => exact amoa_closePollRoute st u sl p h
      exact ih (applyPollOp st op) hstep
  · intro st u sl pid x hx hact
    revert hx
    unfold closePollRoute
    cases hfind : findOwnedDrop st sl u with
    | none => simp
    | some drop =>
      cases hpoll : List.find? (fun p => p.id == pid && p.dropId == drop.id) st.polls with
      | none => simp [hpoll]
      | some poll =>
        simp only [hpoll]
        intro hx
        obtain ⟨p0, hp0, rfl⟩ := List.mem_map.mp hx
        rw [closeById_isActive hact]
        exact hp0

/-- Witness for C5: starting from an empty poll table, two creations and
one closure on an owned drop leave at most one active poll; and the poll
left active by closing the other one was present before. -/
theorem C5_witness :
    AtMostOneActive (applyPollOps
      ⟨[{ id := "d1", slug := "s1", ownerUserId := "u1", name := "n", symbol := "SYM",
          description := "d", status := .LAUNCHED, tokenMint := some "m",
          tokenMetadataUrl := some "mu", configKey := some "k", launchSig := some "ls",
          prizePoolWallet := "pw", streamerBps := 5000, prizePoolBps := 5000,
          holderThresholdRaw := "0", initialBuyLamports := "10000000" }], [], []⟩
      [.create "u1" "s1" "q1?" ["a", "b"] "p1",
       .create "u1" "s1" "q2?" ["c", "d"] "p2",
       .close "u1" "s1" "p2"]).polls ∧
    ((⟨"p1", "d1", "q", ["a", "b"], true⟩ : Poll) ∈
      ((closePollRoute
        ⟨[{ id := "d1", slug := "s1", ownerUserId := "u1", name := "n", symbol := "SYM",
            description := "d", status := .LAUNCHED, tokenMint := some "m",
            tokenMetadataUrl := some "mu", configKey := some "k", launchSig := some "ls",
            prizePoolWallet := "pw", streamerBps := 5000, prizePoolBps := 5000,
            holderThresholdRaw := "0", initialBuyLamports := "10000000" }],
          [⟨"p1", "d1", "q", ["a", "b"], true⟩, ⟨"p2", "d1", "q2", ["c"], false⟩], []⟩
        "u1" "s1" "p2").1).polls →
      (⟨"p1", "d1", "q", ["a", "b"], true⟩ : Poll) ∈
        [⟨"p1", "d1", "q", ["a", "b"], true⟩, ⟨"p2", "d1", "q2", ["c"], false⟩]) := by
  constructor
  · exact C5_at_most_one_active_poll.1 _ _ (List.Pairwise.nil)
  · intro hx
    exact C5_at_most_one_active_poll.2
      ⟨[{ id := "d1", slug := "s1", ownerUserId := "u1", name := "n", symbol := "SYM",
          description := "d", status := .LAUNCHED, tokenMint := some "m",
          tokenMetadataUrl := some "mu", configKey := some "k", launchSig := some "ls",
          prizePoolWallet := "pw", streamerBps := 5000, prizePoolBps := 5000,
          holderThresholdRaw := "0", initialBuyLamports := "10000000" }],
        [⟨"p1", "d1", "q", ["a", "b"], true⟩, ⟨"p2", "d1", "q2", ["c"], false⟩], []⟩
      "u1" "s1" "p2" ⟨"p1", "d1", "q", ["a", "b"], true⟩ hx (by decide)

end LiveDrops

namespace LiveDrops

/-! ## C1 — duplicate-vote detection is substring containment -/

/-- C1 (counterexample): the duplicate check filters with
`payloadJson: { contains: pollId }`.  With two polls `"a"` (active) and
`"ab"`, a wallet whose only recorded vote is for poll `"ab"` is rejected
as a duplicate when voting on poll `"a"` — its stored payload contains
`"a"` as a substring — although no prior VOTE Action has an embedded
pollId equal to `"a"`. -/
theorem C1_counterexample :
    (submitVote ⟨fun _ => true, fun _ _ => none, fun _ _ => .ok [], 0, 15000, 200⟩
      ⟨[{ id := "d1", slug := "s1", ownerUserId := "u1", name := "n", symbol := "SYM",
          description := "d", status := .LAUNCHED, tokenMint := some "m",
          tokenMetadataUrl := some "mu", configKey := some "k", launchSig := some "ls",
          prizePoolWallet := "pw", streamerBps := 5000, prizePoolBps := 5000,
          holderThresholdRaw := "0", initialBuyLamports := "10000000" }],
        [⟨"a", "d1", "q1", ["x", "y"], true⟩, ⟨"ab", "d1", "q0", ["x", "y"], false⟩],
        [⟨"d1", "w", .VOTE, renderVotePayload "ab" 0⟩]⟩
      ⟨"s1", "w", "a", 0⟩).2 = .duplicateVote ∧
    ∀ a ∈ [(⟨"d1", "w", .VOTE, renderVotePayload "ab" 0⟩ : Action)],
      (parseVotePayload a.payloadJson).map Prod.fst ≠ some "a" := by
  exact ⟨by rfl, by decide⟩

/-- C1 (amended): once a vote request passes validation, drop lookup,
launch, active-poll, option-range and threshold checks, it is rejected as
a duplicate exactly when some prior VOTE Action of the same drop and
wallet has a payload containing the submitted pollId as a substring; in
particular, when the wallet has no such prior action, the vote succeeds,
and an identical resubmission is then rejected as a duplicate (the stored
payload embeds its own pollId). -/
theorem C1_amended_duplicate_check :
    ∀ (env : ViewerEnv) (st : DbState) (req : VoteReq) (drop : Drop) (mint : String)
      (poll : Poll) (rest : List Poll),
      env.validKey req.viewerWallet = true →
      voteActionValid req.pollId req.optionIndex = true →
      st.drops.find? (fun d => d.slug == req.slug) = some drop →
      drop.tokenMint = some mint →
      drop.status = .LAUNCHED →
      (st.polls.filter
        (fun p => p.dropId == drop.id && p.id == req.pollId && p.isActive)).take 1 =
        poll :: rest →
      req.optionIndex < (poll.options.length : Int) →
      checkHolderThreshold (env.balCache req.viewerWallet mint) env.now env.ttlMs
        (env.balQuery req.viewerWallet mint) drop.holderThresholdRaw = some true →
      (((submitVote env st req).2 = .duplicateVote) ↔
        ∃ a ∈ st.actions, a.dropId = drop.id ∧ a.viewerWallet = req.viewerWallet ∧
          a.type = ActionType.VOTE ∧ strContains a.payloadJson req.pollId = true) ∧
      ((∀ a ∈ st.actions, ¬ (a.dropId = drop.id ∧ a.viewerWallet = req.viewerWallet ∧
          a.type = ActionType.VOTE ∧ strContains a.payloadJson req.pollId = true)) →
        (submitVote env st req).2 =
          .voteOk req.optionIndex.toNat
            (votePostCounts
              (st.actions ++ [⟨drop.id, req.viewerWallet, .VOTE,
                renderVotePayload req.pollId req.optionIndex.toNat⟩])
              drop.id req.pollId poll.options.length) ∧
        (submitVote env (submitVote env st req).1 req).2 = .duplicateVote) := by
  intro env st req drop mint poll rest hkey hvalid hfind hmint hstatus hpolls hrange hthr
  have hvalid' := hvalid
  simp only [voteActionValid, Bool.and_eq_true, decide_eq_true_eq] at hvalid'
  have hr1 : ¬ (req.optionIndex < 0) := by omega
  have hr2 : ¬ ((poll.options.length : Int) ≤ req.optionIndex) := not_le.mpr hrange
  have hpredeq : ∀ a : Action,
      ((a.dropId == drop.id && a.viewerWallet == req.viewerWallet &&
        a.type == ActionType.VOTE && strContains a.payloadJson req.pollId) = true) ↔
      (a.dropId = drop.id ∧ a.viewerWallet = req.viewerWallet ∧
        a.type = ActionType.VOTE ∧ strContains a.payloadJson req.pollId = true) := by
    intro a
    simp [Bool.and_eq_true, and_assoc]
  constructor
  · cases hdup : st.actions.find? (fun a =>
        a.dropId == drop.id && a.viewerWallet == req.viewerWallet &&
        a.type == ActionType.VOTE && strContains a.payloadJson req.pollId) with
    | some a =>
      have hmem := List.mem_of_find?_eq_some hdup
      have hpred := List.find?_some hdup
      have hresp : (submitVote env st req).2 = .duplicateVote := by
        simp [submitVote, hkey, hvalid, hfind, hmint, hstatus, hpolls, hr1, hr2,
          hthr, hdup]
      exact ⟨fun _ => ⟨a, hmem, (hpredeq a).mp hpred⟩, fun _ => hresp⟩
    | none =>
      have hresp : (submitVote env st req).2 =
          .voteOk req.optionIndex.toNat
            (votePostCounts
              (st.actions ++ [⟨drop.id, req.viewerWallet, .VOTE,
                renderVotePayload req.pollId req.optionIndex.toNat⟩])
              drop.id req.pollId poll.options.length) := by
        simp [submitVote, hkey, hvalid, hfind, hmint, hstatus, hpolls, hr1, hr2,
          hthr, hdup]
      rw [hresp]
      refine ⟨fun h => absurd h (by simp), ?_⟩
      rintro ⟨a, hmem, hprop⟩
      exact absurd ((hpredeq a).mpr hprop)
        (by simpa using List.find?_eq_none.mp hdup a hmem)
  · intro hnoprior
    have hnodup : st.actions.find? (fun a =>
        a.dropId == drop.id && a.viewerWallet == req.viewerWallet &&
        a.type == ActionType.VOTE && strContains a.payloadJson req.pollId) = none := by
      apply List.find?_eq_none.mpr
      intro a hmem
      intro hpred
      exact hnoprior a hmem ((hpredeq a).mp hpred)
    have hfirst : submitVote env st req =
        ({ st with actions := st.actions ++ [⟨drop.id, req.viewerWallet, .VOTE,
            renderVotePayload req.pollId req.optionIndex.toNat⟩] },
         .voteOk req.optionIndex.toNat
           (votePostCounts
             (st.actions ++ [⟨drop.id, req.viewerWallet, .VOTE,
               renderVotePayload req.pollId req.optionIndex.toNat⟩])
             drop.id req.pollId poll.options.length)) := by
      simp [submitVote, hkey, hvalid, hfind, hmint, hstatus, hpolls, hr1, hr2,
        hthr, hnodup]
    refine ⟨by rw [hfirst], ?_⟩
    rw [hfirst]
    cases hdup2 : (st.actions ++ [(⟨drop.id, req.viewerWallet, .VOTE,
        renderVotePayload req.pollId req.optionIndex.toNat⟩ : Action)]).find? (fun a =>
        a.dropId == drop.id && a.viewerWallet == req.viewerWallet &&
        a.type == ActionType.VOTE && strContains a.payloadJson req.pollId) with
    | some a =>
      simp [submitVote, hkey, hvalid, hfind, hmint, hstatus, hpolls, hr1, hr2,
        hthr, hdup2]
    | none =>
      exfalso
      have hnone := List.find?_eq_none.mp hdup2
      have hmem : (⟨drop.id, req.viewerWallet, .VOTE,
          renderVotePayload req.pollId req.optionIndex.toNat⟩ : Action) ∈
          st.actions ++ [⟨drop.id, req.viewerWallet, .VOTE,
            renderVotePayload req.pollId req.optionIndex.toNat⟩] := by
        simp
      have := hnone _ hmem
      simp [strContains_renderVotePayload] at this

/-- Witness for C1 (amended) at a concrete launched drop: the wallet's
first vote on the active poll `"a"` succeeds with tally `[1, 0]` and the
immediate resubmission is rejected as a duplicate. -/
theorem C1_witness :
    (submitVote ⟨fun _ => true, fun _ _ => none, fun _ _ => .ok [], 0, 15000, 200⟩
      ⟨[{ id := "d1", slug := "s1", ownerUserId := "u1", name := "n", symbol := "SYM",
          description := "d", status := .LAUNCHED, tokenMint := some "m",
          tokenMetadataUrl := some "mu", configKey := some "k", launchSig := some "ls",
          prizePoolWallet := "pw", streamerBps := 5000, prizePoolBps := 5000,
          holderThresholdRaw := "0", initialBuyLamports := "10000000" }],
        [⟨"a", "d1", "q1", ["x", "y"], true⟩], []⟩
      ⟨"s1", "w", "a", 0⟩).2 =
      .voteOk 0 (votePostCounts
        [⟨"d1", "w", .VOTE, renderVotePayload "a" 0⟩] "d1" "a" 2) ∧
    (submitVote ⟨fun _ => true, fun _ _ => none, fun _ _ => .ok [], 0, 15000, 200⟩
      (submitVote ⟨fun _ => true, fun _ _ => none, fun _ _ => .ok [], 0, 15000, 200⟩
        ⟨[{ id := "d1", slug := "s1", ownerUserId := "u1", name := "n", symbol := "SYM",
            description := "d", status := .LAUNCHED, tokenMint := some "m",
            tokenMetadataUrl := some "mu", configKey := some "k", launchSig := some "ls",
            prizePoolWallet := "pw", streamerBps := 5000, prizePoolBps := 5000,
            holderThresholdRaw := "0", initialBuyLamports := "10000000" }],
          [⟨"a", "d1", "q1", ["x", "y"], true⟩], []⟩
        ⟨"s1", "w", "a", 0⟩).1
      ⟨"s1", "w", "a", 0⟩).2 = .duplicateVote := by
  have h := C1_amended_duplicate_check
    ⟨fun _ => true, fun _ _ => none, fun _ _ => .ok [], 0, 15000, 200⟩
    ⟨[{ id := "d1", slug := "s1", ownerUserId := "u1", name := "n", symbol := "SYM",
        description := "d", status := .LAUNCHED, tokenMint := some "m",
        tokenMetadataUrl := some "mu", configKey := some "k", launchSig := some "ls",
        prizePoolWallet := "pw", streamerBps := 5000, prizePoolBps := 5000,
        holderThresholdRaw := "0", initialBuyLamports := "10000000" }],
      [⟨"a", "d1", "q1", ["x", "y"], true⟩], []⟩
    ⟨"s1", "w", "a", 0⟩
    { id := "d1", slug := "s1", ownerUserId := "u1", name := "n", symbol := "SYM",
      description := "d", status := .LAUNCHED, tokenMint := some "m",
      tokenMetadataUrl := some "mu", configKey := some "k", launchSig := some "ls",
      prizePoolWallet := "pw", streamerBps := 5000, prizePoolBps := 5000,
      holderThresholdRaw := "0", initialBuyLamports := "10000000" }
    "m" ⟨"a", "d1", "q1", ["x", "y"], true⟩ []
    rfl rfl rfl rfl rfl rfl (by decide) rfl
  have h2 := h.2 (by simp)
  exact ⟨h2.1, h2.2⟩

end LiveDrops

namespace LiveDrops

/-! ## C6 — URL-only input yields the placeholder, not a rejection -/

/-- C6 (counterexample): an input consisting solely of a URL and
whitespace is not rejected: `sanitizeTtsMessage` returns the placeholder
`"[link removed]"` (the final emptiness check strips whitespace, `*`, `[`
and `]` but keeps the placeholder's letters), and the TTS route therefore
persists a placeholder-only MESSAGE action instead of failing with the
rejection error. -/
theorem C6_counterexample :
    sanitizeTtsMessage "  http://x.com " 200 = some "[link removed]" ∧
    sanitizeTtsMessage "  http://x.com " 200 ≠ none ∧
    (submitTts ⟨fun _ => true, fun _ _ => none, fun _ _ => .ok [], 0, 15000, 200⟩
      ⟨[{ id := "d1", slug := "s1", ownerUserId := "u1", name := "n", symbol := "SYM",
          description := "d", status := .LAUNCHED, tokenMint := some "m",
          tokenMetadataUrl := some "mu", configKey := some "k", launchSig := some "ls",
          prizePoolWallet := "pw", streamerBps := 5000, prizePoolBps := 5000,
          holderThresholdRaw := "0", initialBuyLamports := "10000000" }], [], []⟩
      ⟨"s1", "w", "  http://x.com "⟩).2 = .ttsOk "[link removed]" := by
  refine ⟨by rfl, by simp [show sanitizeTtsMessage "  http://x.com " 200 =
    some "[link removed]" from rfl], by rfl⟩

theorem replaceScanF_nil (m : Option Char → List Char → Option Nat) (rp : List Char) :
    ∀ (fuel : Nat) (prev : Option Char), replaceScanF m rp fuel prev [] = [] := by
  intro fuel prev
  cases fuel <;> rfl

theorem replaceScanF_cons (m : Option Char → List Char → Option Nat) (rp : List Char)
    (fuel : Nat) (prev : Option Char) (c : Char) (cs : List Char) :
    replaceScanF m rp (fuel + 1) prev (c :: cs) =
      match m prev (c :: cs) with
      | some n => rp ++ replaceScanF m rp fuel ((c :: cs).get? (n - 1)) (cs.drop (n - 1))
      | none => c :: replaceScanF m rp fuel (some c) cs := rfl

/-- The URL scanner maps a whole-string `http://…` URL to the placeholder:
alternative 1 of `URL_PATTERN` matches at position 0 and greedily consumes
the entire remainder. -/
theorem urlScan_http (r : List Char) (hne : r ≠ [])
    (hws : ∀ c ∈ r, isJsWs c = false) :
    replaceScan urlMatcher "[link removed]".data none ("http://".data ++ r) =
      "[link removed]".data := by
  have hnws : nonWsLen r = r.length := by
    unfold nonWsLen
    rw [takeWhile_of_all (fun c hc => by simp [hws c hc])]
  have hm1 : 1 ≤ r.length := by
    cases r with
    | nil => exact absurd rfl hne
    | cons a t => simp
  have hhttp : matchHttp ("http://".data ++ r) = some (7 + r.length) := by
    have e1 : matchHttp ("http://".data ++ r) =
        (if 1 ≤ nonWsLen r then some (7 + nonWsLen r) else none) := rfl
    rw [e1, hnws, if_pos hm1]
  have hm : urlMatcher none ("http://".data ++ r) = some (7 + r.length) := by
    unfold urlMatcher
    rw [hhttp]
  have hm' : urlMatcher none ('h' :: ("ttp://".data ++ r)) = some (7 + r.length) := hm
  have hlen : ("http://".data ++ r).length = (6 + r.length) + 1 := by
    have h7 : ("http://".data).length = 7 := rfl
    rw [List.length_append, h7]
    omega
  unfold replaceScan
  rw [hlen]
  have hl : ("http://".data ++ r) = 'h' :: ("ttp://".data ++ r) := rfl
  rw [hl, replaceScanF_cons, hm']
  have hdrop : ("ttp://".data ++ r).drop (7 + r.length - 1) = [] := by
    have h6 : ("ttp://".data ++ r).length = 6 + r.length := by
      have e : ("ttp://".data).length = 6 := rfl
      rw [List.length_append, e]
    have he : 7 + r.length - 1 = ("ttp://".data ++ r).length := by omega
    rw [he, List.drop_length]
  simp only [hdrop, replaceScanF_nil, List.append_nil]

/-- The alternative of `URL_PATTERN` with the optional `s` taken: a
whole-string `https://…` URL is likewise consumed from position 0. -/
theorem urlScan_https (r : List Char) (hne : r ≠ [])
    (hws : ∀ c ∈ r, isJsWs c = false) :
    replaceScan urlMatcher "[link removed]".data none ("https://".data ++ r) =
      "[link removed]".data := by
  have hnws : nonWsLen r = r.length := by
    unfold nonWsLen
    rw [takeWhile_of_all (fun c hc => by simp [hws c hc])]
  have hm1 : 1 ≤ r.length := by
    cases r with
    | nil => exact absurd rfl hne
    | cons a t => simp
  have hhttp : matchHttp ("https://".data ++ r) = some (8 + r.length) := by
    have e1 : matchHttp ("https://".data ++ r) =
        (if 1 ≤ nonWsLen r then some (8 + nonWsLen r) else none) := rfl
    rw [e1, hnws, if_pos hm1]
  have hm : urlMatcher none ("https://".data ++ r) = some (8 + r.length) := by
    unfold urlMatcher
    rw [hhttp]
  have hm' : urlMatcher none ('h' :: ("ttps://".data ++ r)) = some (8 + r.length) := hm
  have hlen : ("https://".data ++ r).length = (7 + r.length) + 1 := by
    have h8 : ("https://".data).length = 8 := rfl
    rw [List.length_append, h8]
    omega
  unfold replaceScan
  rw [hlen]
  have hl : ("https://".data ++ r) = 'h' :: ("ttps://".data ++ r) := rfl
  rw [hl, replaceScanF_cons, hm']
  have hdrop : ("ttps://".data ++ r).drop (8 + r.length - 1) = [] := by
    have h7 : ("ttps://".data ++ r).length = 7 + r.length := by
      have e : ("ttps://".data).length = 7 := rfl
      rw [List.length_append, e]
    have he : 8 + r.length - 1 = ("ttps://".data ++ r).length := by omega
    rw [he, List.drop_length]
  simp only [hdrop, replaceScanF_nil, List.append_nil]

/-- Once the URL replacement has turned the whole trimmed input into the
placeholder, the remaining sanitization stages (invite replacement, run
collapse, caps handling, profanity pass, truncation for
`maxLength ≥ 14`, final emptiness check) leave `"[link removed]"`
standing and return it. -/
theorem sanitize_of_whole_scan (input : String) (maxLength : Nat) (u : List Char)
    (htrim : jsTrim input.data = u) (hne0 : ¬ (u.length = 0))
    (hscan : replaceScan urlMatcher "[link removed]".data none u =
      "[link removed]".data)
    (hmax : 14 ≤ maxLength) :
    sanitizeTtsMessage input maxLength = some "[link removed]" := by
  unfold sanitizeTtsMessage
  rw [htrim]
  rw [if_neg hne0, hscan]
  simp only []
  have h1 : replaceScan inviteMatcher "[invite removed]".data none
      "[link removed]".data = "[link removed]".data := rfl
  rw [h1]
  have h2 : collapseRuns "[link removed]".data = "[link removed]".data := rfl
  rw [h2]
  have h3 : hasExcessiveCaps "[link removed]".data = false := rfl
  rw [h3]
  simp only [Bool.false_eq_true, if_false]
  have h4 : List.intercalate [' ']
      ((splitWords "[link removed]".data).map maskProfanity) =
      "[link removed]".data := rfl
  rw [h4]
  have h5 : ("[link removed]".data).length = 14 := rfl
  rw [h5]
  rw [if_neg (by omega : ¬ (maxLength < 14))]
  rw [if_neg (by decide :
    ¬ ((("[link removed]".data).filter
      (fun c => !(isJsWs c || c == '*' || c == '[' || c == ']'))).length = 0))]

/-- C6 (amended): for every input whose trimmed text is a whitespace-free
`http://…` or `https://…` URL, and any `maxLength` of at least the
placeholder's 14 characters, `sanitizeTtsMessage` returns
`some "[link removed]"` — the fixed placeholder — rather than the `none`
rejection the claim asserted. -/
theorem C6_amended_url_only_placeholder :
    ∀ (input : String) (r : List Char) (maxLength : Nat),
      (jsTrim input.data = "http://".data ++ r ∨
       jsTrim input.data = "https://".data ++ r) →
      r ≠ [] →
      (∀ c ∈ r, isJsWs c = false) →
      14 ≤ maxLength →
      sanitizeTtsMessage input maxLength = some "[link removed]" := by
  intro input r maxLength htrim hne hws hmax
  rcases htrim with h | h
  · exact sanitize_of_whole_scan input maxLength _ h
      (by simp [List.length_append]) (urlScan_http r hne hws) hmax
  · exact sanitize_of_whole_scan input maxLength _ h
      (by simp [List.length_append]) (urlScan_https r hne hws) hmax

/-- Witness for C6 (amended) at the concrete inputs `" http://x.co "` and
`" https://x.co "` with the default 200-character limit. -/
theorem C6_witness :
    sanitizeTtsMessage " http://x.co " 200 = some "[link removed]" ∧
    sanitizeTtsMessage " https://x.co " 200 = some "[link removed]" := by
  exact ⟨C6_amended_url_only_placeholder " http://x.co " "x.co".data 200
      (Or.inl (by decide)) (by decide) (by decide) (by decide),
    C6_amended_url_only_placeholder " https://x.co " "x.co".data 200
      (Or.inr (by decide)) (by decide) (by decide) (by decide)⟩

end LiveDrops
